import Mathlib

/-!
Verification of `scripts/extract_kernel_symbols.py`: a shallow embedding of the
symbol-table extraction, its binary encoding, the size guard and the four-step
binary-patch sequence, together with theorems settling the specification's
claims about them.

Modelling conventions:
* Python `bytes` become `List Nat` (each element `< 256`).
* Python `str` becomes `String` (or `List Char` where induction over the
  characters is needed); Python `len` on a `str` counts code points, which is
  `List.length` on the character list.
* Fallible operations (`IndexError`, `OverflowError`, `ValueError`,
  `CalledProcessError`, `sys.exit(1)`) become `Option`/`Except`
  failures; an uncaught Python exception terminates the process with a
  non-zero status, so the driver model maps every failure to exit code 1.
* External side effects (running `nm`, writing the map file, running
  `objcopy`) are recorded as an ordered trace of `Event`s; the kernel binary
  is only ever mutated by `objcopy` invocations, so a trace without `objcopy`
  events leaves the kernel binary untouched.
-/

namespace KernelSymbols

/-- A filesystem path, kept structured the way `pathlib.Path` is used by the
script: a parent directory, a stem and a final suffix.  `kernel.parent` is
`dir`, `kernel.stem` is `stem`, `kernel.with_suffix(s)` replaces `ext`. -/
structure Path where
  dir : String
  stem : String
  ext : String
deriving DecidableEq

/-- `str(p)` for a structured path. -/
def Path.str (p : Path) : String := p.dir ++ "/" ++ p.stem ++ p.ext

/-- `p.with_suffix(s)`. -/
def Path.withSuffix (p : Path) (s : String) : Path := { p with ext := s }

/-- `map_file = kernel.parent / f"{kernel.stem}.map"` (line 52 of the script). -/
def map_file (kernel : Path) : Path :=
  { dir := kernel.dir, stem := kernel.stem, ext := ".map" }

/-- `encode(n) = n.to_bytes(4, "little")` (lines 22-23).  `int.to_bytes`
raises `OverflowError` when the value does not fit in four bytes, modelled as
`none`. -/
def encode (n : Nat) : Option (List Nat) :=
  if n < 4294967296 then
    some [n % 256, n / 256 % 256, n / 65536 % 256, n / 16777216 % 256]
  else none

/-- The UTF-8 encoding of one Unicode scalar value, exactly as Python
`str.encode("utf-8")` serialises each code point (Lean `Char` and Python code
points in well-formed text both exclude surrogates). -/
def utf8EncodeChar (c : Char) : List Nat :=
  let n := c.toNat
  if n < 128 then [n]
  else if n < 2048 then [192 + n / 64, 128 + n % 64]
  else if n < 65536 then [224 + n / 4096, 128 + n / 64 % 64, 128 + n % 64]
  else [240 + n / 262144, 128 + n / 4096 % 64, 128 + n / 64 % 64, 128 + n % 64]

/-- `s.encode("utf-8")` for a string given as its code points. -/
def utf8Encode (s : List Char) : List Nat := (s.map utf8EncodeChar).flatten

/-- The UTF-8 byte length of a string. -/
def utf8Len (s : List Char) : Nat := (utf8Encode s).length

/-- One encoded table entry, lines 56-60 of the script, for an already parsed
address and name: `name = symbol[1] + chr(0)` and the writes
`encode(len(name) + 2 * 4)`, `encode(address)`, `name.encode("utf-8")`
concatenated.  Note that `len(name)` counts characters while
`name.encode("utf-8")` produces bytes. -/
def encodeEntry (address : Nat) (name : List Char) : Option (List Nat) := do
  let nameT := name ++ [Char.ofNat 0]
  let sz ← encode (nameT.length + 2 * 4)
  let ad ← encode address
  pure (sz ++ ad ++ utf8Encode nameT)

/-- The body of the encoded table: each symbol's entry in order. -/
def encodeTableBody : List (Nat × List Char) → Option (List Nat)
  | [] => some []
  | s :: rest => do
      let e ← encodeEntry s.1 s.2
      let b ← encodeTableBody rest
      pure (e ++ b)

/-- The full encoded blob for a list of `(address, name)` symbols: the
4-byte little-endian count header followed by the entries (lines 54-60). -/
def encodeTable (symbols : List (Nat × List Char)) : Option (List Nat) := do
  let hdr ← encode symbols.length
  let body ← encodeTableBody symbols
  pure (hdr ++ body)

/-- `l[i]` would raise `IndexError`: fetched as an `Option`. -/
def pyIndex (l : List α) (i : Nat) : Option α := l[i]?

/-- `l.pop(0)`: the popped element and the remainder, `none` on an empty list
(Python raises `IndexError: pop from empty list`). -/
def pyPop0 : List α → Option (α × List α)
  | [] => none
  | x :: xs => some (x, xs)

/-- `l.insert(i, x)` for a non-negative index: Python clamps the index to the
list length, so an out-of-range index appends. -/
def pyInsert (i : Nat) (x : α) (l : List α) : List α :=
  l.take i ++ x :: l.drop i

/-- The reordering applied to the filtered symbol list (lines 48-49):
`function_symbols.pop(0)` then
`function_symbols.insert(1, function_symbols.pop(0))`.  Either `pop(0)` on a
too-short list raises, modelled as `none`. -/
def reorder (l : List α) : Option (List α) :=
  match pyPop0 l with
  | none => none
  | some (_, l1) =>
    match pyPop0 l1 with
    | none => none
    | some (x, l2) => some (pyInsert 1 x l2)

/-- The selection predicate of the list comprehension (line 45):
`symbol.split()[1] in ["t", "T"] or
 symbol.split()[2] in ["_kernel_code_start", "_kernel_code_end"]`,
for a line already split into its whitespace-separated tokens.  Python
evaluates the left disjunct first and short-circuits, so a missing token `[1]`
always raises and a missing token `[2]` raises only when the type test was
false; a raised `IndexError` is modelled as `Except.error ()`. -/
def selectLine (tokens : List String) : Except Unit Bool :=
  match pyIndex tokens 1 with
  | none => Except.error ()
  | some ty =>
    if ty == "t" || ty == "T" then Except.ok true
    else
      match pyIndex tokens 2 with
      | none => Except.error ()
      | some nm => Except.ok (nm == "_kernel_code_start" || nm == "_kernel_code_end")

/-- `l[::2]`: every other element starting at index 0. -/
def everyOther : List α → List α
  | [] => []
  | [x] => [x]
  | x :: _ :: rest => x :: everyOther rest

/-- The list comprehension of lines 43-46: keep the lines selected by
`selectLine` and reduce each kept line to `symbol.split()[::2]`; the first
raised `IndexError` aborts the whole comprehension. -/
def selectLines : List (List String) → Except Unit (List (List String))
  | [] => Except.ok []
  | line :: rest =>
    match selectLine line with
    | Except.error e => Except.error e
    | Except.ok keep =>
      match selectLines rest with
      | Except.error e => Except.error e
      | Except.ok tail => Except.ok (if keep then everyOther line :: tail else tail)

/-- The value of one hexadecimal digit character. -/
def hexDigit (c : Char) : Option Nat :=
  if 48 ≤ c.toNat ∧ c.toNat ≤ 57 then some (c.toNat - 48)
  else if 97 ≤ c.toNat ∧ c.toNat ≤ 102 then some (c.toNat - 97 + 10)
  else if 65 ≤ c.toNat ∧ c.toNat ≤ 70 then some (c.toNat - 65 + 10)
  else none

/-- Horner accumulation of hex digits; `none` on the first non-digit. -/
def parseHexChars : List Char → Nat → Option Nat
  | [], acc => some acc
  | c :: cs, acc =>
    match hexDigit c with
    | none => none
    | some d => parseHexChars cs (acc * 16 + d)

/-- `int(s, base=16)` (line 56) restricted to plain unsigned hex-digit
strings, which is the shape of every address column `nm` emits; the empty
string or a non-digit raises `ValueError`, modelled as `none`. -/
def parseHex (s : String) : Option Nat :=
  match s.data with
  | [] => none
  | cs => parseHexChars cs 0

/-- The per-symbol work of the writing loop (lines 55-60) on one reduced
token list: `address = int(symbol[0], base=16)`, `name = symbol[1] + chr(0)`,
then the three writes of `encodeEntry`. -/
def encodeSymbol (symbol : List String) : Option (List Nat) := do
  let a ← pyIndex symbol 0
  let n ← pyIndex symbol 1
  let address ← parseHex a
  encodeEntry address n.data

/-- The writing loop over all symbols. -/
def encodeBody : List (List String) → Option (List Nat)
  | [] => some []
  | s :: rest => do
      let e ← encodeSymbol s
      let b ← encodeBody rest
      pure (e ++ b)

/-- The full map-file contents produced by lines 53-60: count header then the
entries. -/
def encodeLines (function_symbols : List (List String)) : Option (List Nat) := do
  let hdr ← encode function_symbols.length
  let body ← encodeBody function_symbols
  pure (hdr ++ body)

/-- The argument vectors of the four `objcopy` invocations of
`generate_binary_files` (lines 77-80), in source order:
extract the debug info into the sibling `.sym` file, strip the kernel in
place, overwrite the reserved `.kernel_symbols` section with the map file,
and attach a `gnu_debuglink` record pointing at the `.sym` file. -/
def patchCmds (kernel symbol_table : Path) : List (List String) :=
  [ ["objcopy", "--only-keep-debug", kernel.str, (kernel.withSuffix ".sym").str],
    ["objcopy", "--strip-debug", kernel.str],
    ["objcopy", "--update-section", ".kernel_symbols=" ++ symbol_table.str, kernel.str],
    ["objcopy", "--add-gnu-debuglink=" ++ (kernel.withSuffix ".sym").str, kernel.str] ]

/-- Run a sequence of `subprocess.check_call` invocations: `ok` says whether a
given command exits successfully.  `check_call` raises `CalledProcessError` on
failure, so execution stops right after the first failing command.  Returns
the commands actually executed, in order, and whether all of them succeeded. -/
def runCalls (ok : List String → Bool) : List (List String) → List (List String) × Bool
  | [] => ([], true)
  | c :: cs =>
    if ok c then
      let r := runCalls ok cs
      (c :: r.1, r.2)
    else ([c], false)

/-- `generate_binary_files(kernel, symbol_table)` (lines 67-80): the four
patch invocations run in sequence, aborted by the first failure. -/
def generate_binary_files (kernel symbol_table : Path) (ok : List String → Bool) :
    List (List String) × Bool :=
  runCalls ok (patchCmds kernel symbol_table)

/-- Observable side effects of one pipeline run, in order: the `nm` call, the
write of the encoded blob to the map file (`open(map_file, "wb")` truncates,
so this overwrites any previous map file), and each `objcopy` invocation.
Only `objcopy` invocations other than `--only-keep-debug` mutate the kernel
binary, so a trace without `objcopy` events leaves it untouched. -/
inductive Event where
  | runNm (target : Path)
  | writeMap (file : Path) (blob : List Nat)
  | objcopy (cmd : List String)
deriving DecidableEq

/-- The environment of one run: whether the kernel path exists, the symbol
listing `nm -n` produces (already split into lines and whitespace tokens; the
empty list models empty `nm` output), the `section_size` argument, and which
`objcopy` invocations succeed. -/
structure World where
  kernelExists : Bool
  nmLines : List (List String)
  sectionSize : Nat
  objcopyOk : List String → Bool

/-- `extract_symbol_table(kernel)` (lines 27-62) as a trace transformer: run
`nm`, exit if its output is empty, filter and reorder the lines, encode and
write the map file.  `none` is any fatal outcome (the explicit `sys.exit(1)`
or an uncaught exception); `some` carries the map-file path the function
returns together with the bytes it wrote. -/
def extract_symbol_table (kernel : Path) (nmLines : List (List String)) :
    List Event × Option (Path × List Nat) :=
  let tr := [Event.runNm kernel]
  if nmLines.isEmpty then (tr, none)
  else
    match selectLines nmLines with
    | Except.error _ => (tr, none)
    | Except.ok function_symbols =>
      match reorder function_symbols with
      | none => (tr, none)
      | some function_symbols =>
        match encodeLines function_symbols with
        | none => (tr, none)
        | some blob =>
          (tr ++ [Event.writeMap (map_file kernel) blob], some (map_file kernel, blob))

/-- The tail of `main` (lines 92-98): `os.stat(symbol_table).st_size` is the
byte length of the blob just written; if it exceeds `section_size` the run
exits 1 before any patch step, otherwise the four-step patch sequence runs
and a `check_call` failure propagates as exit code 1. -/
def guardAndPatch (kernel symbol_table : Path) (blob : List Nat)
    (section_size : Nat) (ok : List String → Bool) : List Event × Nat :=
  if blob.length > section_size then ([], 1)
  else
    let r := generate_binary_files kernel symbol_table ok
    (r.1.map Event.objcopy, if r.2 then 0 else 1)

/-- `main()` (lines 84-98): check the kernel path exists, extract and write
the symbol table, then guard the size and patch.  Returns the event trace and
the process exit code. -/
def main (kernel : Path) (w : World) : List Event × Nat :=
  if w.kernelExists = false then ([], 1)
  else
    match extract_symbol_table kernel w.nmLines with
    | (tr, none) => (tr, 1)
    | (tr, some (symbol_table, blob)) =>
      let r := guardAndPatch kernel symbol_table blob w.sectionSize w.objcopyOk
      (tr ++ r.1, r.2)

/-- Whether a UTF-8 continuation byte. -/
def isCont (b : Nat) : Bool := 128 ≤ b && b < 192

/-- Modelled from the spec: the decoder of §4.3/§8 is the in-kernel runtime
symbolizer, whose C source is not part of this repository; its byte-level
reading discipline is given by the spec's layout.  This decodes one UTF-8
scalar value from the head of a byte list, rejecting truncated or malformed
sequences; the first argument is fuel bounding the recursion. -/
def utf8DecodeFuel : Nat → List Nat → Option (List Char)
  | _, [] => some []
  | 0, _ :: _ => none
  | fuel + 1, b :: rest =>
    if b < 128 then
      (utf8DecodeFuel fuel rest).map (fun cs => Char.ofNat b :: cs)
    else if 194 ≤ b ∧ b < 224 then
      match rest with
      | b1 :: rest1 =>
        if isCont b1 then
          (utf8DecodeFuel fuel rest1).map
            (fun cs => Char.ofNat ((b - 192) * 64 + (b1 - 128)) :: cs)
        else none
      | _ => none
    else if 224 ≤ b ∧ b < 240 then
      match rest with
      | b1 :: b2 :: rest2 =>
        if isCont b1 && isCont b2 then
          (utf8DecodeFuel fuel rest2).map
            (fun cs => Char.ofNat ((b - 224) * 4096 + (b1 - 128) * 64 + (b2 - 128)) :: cs)
        else none
      | _ => none
    else if 240 ≤ b ∧ b < 245 then
      match rest with
      | b1 :: b2 :: b3 :: rest3 =>
        if isCont b1 && isCont b2 && isCont b3 then
          (utf8DecodeFuel fuel rest3).map
            (fun cs =>
              Char.ofNat ((b - 240) * 262144 + (b1 - 128) * 4096 + (b2 - 128) * 64 + (b3 - 128)) :: cs)
        else none
      | _ => none
    else none

/-- Modelled from the spec: UTF-8 decoding of a full byte list. -/
def utf8Decode (bs : List Nat) : Option (List Char) := utf8DecodeFuel bs.length bs

/-- Modelled from the spec: read one little-endian `uint32` from the head of
the blob ("All integers are 4-byte, little-endian, unsigned"). -/
def readU32 : List Nat → Option (Nat × List Nat)
  | b0 :: b1 :: b2 :: b3 :: rest =>
    some (b0 + 256 * b1 + 65536 * b2 + 16777216 * b3, rest)
  | _ => none

/-- Modelled from the spec: read `count` entries, each `uint32 entry_size`,
`uint32 address`, then `entry_size - 8` bytes holding the UTF-8 name followed
by its explicit null terminator (§4.3 layout). -/
def decodeEntries : Nat → List Nat → Option (List (Nat × List Char) × List Nat)
  | 0, bs => some ([], bs)
  | n + 1, bs => do
      let (sz, bs1) ← readU32 bs
      let (ad, bs2) ← readU32 bs1
      if 8 ≤ sz then
        let nameBytes := bs2.take (sz - 8)
        if nameBytes.length = sz - 8 ∧ nameBytes.getLast? = some 0 then do
          let nm ← utf8Decode nameBytes.dropLast
          let (es, rest) ← decodeEntries n (bs2.drop (sz - 8))
          pure ((ad, nm) :: es, rest)
        else none
      else none

/-- Modelled from the spec: decode a whole blob — the `uint32 entry_count`
header then exactly `entry_count` entries consuming the whole blob — back
into the ordered `(address, name)` sequence (§4.3, §8 round-trip). -/
def decodeTable (bs : List Nat) : Option (List (Nat × List Char)) := do
  let (cnt, bs1) ← readU32 bs
  let (es, rest) ← decodeEntries cnt bs1
  if rest = [] then pure es else none

/-! ## The encoder and the spec's decoder agree on all-ASCII names

Supporting development: the round-trip failure exhibited below for the
non-ASCII name is exactly the size-field undercount.  When every character of
every name is ASCII — one UTF-8 byte per character, so the character count
the script records equals the byte count the layout requires — decoding any
successfully encoded blob reproduces the symbol sequence. -/

/-- A successful 4-byte encoding is read back by the spec's `uint32` reader,
leaving the rest of the blob untouched. -/
theorem readU32_encode (n : Nat) (bs rest : List Nat) (h : encode n = some bs) :
    readU32 (bs ++ rest) = some (n, rest) := by
  unfold encode at h
  split at h
  · cases h
    simp only [List.cons_append, List.nil_append, readU32, Option.some.injEq,
      Prod.mk.injEq, and_true]
    omega
  · exact absurd h (by simp)

/-- On ASCII characters UTF-8 is the identity byte per character. -/
theorem utf8Encode_ascii (name : List Char) (h : ∀ c ∈ name, c.toNat < 128) :
    utf8Encode name = name.map Char.toNat := by
  induction name with
  | nil => rfl
  | cons c cs ih =>
    have hc : c.toNat < 128 := h c (by simp)
    have ht := ih (fun x hx => h x (by simp [hx]))
    simp only [utf8Encode, List.map_cons, List.flatten_cons] at ht ⊢
    rw [ht, utf8EncodeChar]
    simp [hc]

/-- The spec's UTF-8 reader inverts the identity encoding of ASCII bytes. -/
theorem utf8DecodeFuel_ascii (fuel : Nat) :
    ∀ bs : List Nat, bs.length ≤ fuel → (∀ b ∈ bs, b < 128) →
      utf8DecodeFuel fuel bs = some (bs.map Char.ofNat) := by
  induction fuel with
  | zero =>
    intro bs hf _
    cases bs with
    | nil => rfl
    | cons b rest => simp at hf
  | succ n ih =>
    intro bs hf h
    cases bs with
    | nil => rfl
    | cons b rest =>
      have hb : b < 128 := h b (by simp)
      have hr := ih rest (by simpa using Nat.le_of_succ_le_succ hf)
        (fun x hx => h x (by simp [hx]))
      simp [utf8DecodeFuel, hb, hr]

/-- UTF-8 decoding inverts UTF-8 encoding on ASCII strings. -/
theorem utf8Decode_encode_ascii (name : List Char)
    (h : ∀ c ∈ name, c.toNat < 128) :
    utf8Decode (utf8Encode name) = some name := by
  rw [utf8Encode_ascii name h, utf8Decode]
  rw [utf8DecodeFuel_ascii _ _ le_rfl
    (fun b hb => by obtain ⟨c, hc, rfl⟩ := List.mem_map.mp hb; exact h c hc)]
  have hid : ∀ l : List Char, (∀ c ∈ l, c.toNat < 128) →
      (l.map Char.toNat).map Char.ofNat = l := by
    intro l _
    rw [List.map_map]
    exact List.map_id'' Char.ofNat_toNat l
  rw [hid name h]

/-- Reading back the entries of a successfully encoded all-ASCII symbol list
recovers every `(address, name)` pair in order and stops exactly at the end
of the encoded body. -/
theorem decodeEntries_encodeTableBody (symbols : List (Nat × List Char)) :
    ∀ body rest : List Nat,
      (∀ s ∈ symbols, ∀ c ∈ s.2, c.toNat < 128) →
      encodeTableBody symbols = some body →
      decodeEntries symbols.length (body ++ rest) = some (symbols, rest) := by
  induction symbols with
  | nil =>
    intro body rest _ hb
    cases hb
    rfl
  | cons s tl ih =>
    intro body rest hascii hb
    obtain ⟨a, nm⟩ := s
    have hnm : ∀ c ∈ nm, c.toNat < 128 := hascii (a, nm) (by simp)
    cases he : encodeEntry a nm with
    | none => rw [encodeTableBody, he] at hb; simp at hb
    | some e =>
      cases htb : encodeTableBody tl with
      | none => rw [encodeTableBody, he, htb] at hb; simp at hb
      | some tb =>
        rw [encodeTableBody, he, htb] at hb
        simp only [Option.bind_eq_bind, Option.some_bind, Option.pure_def,
          Option.some.injEq] at hb
        subst hb
        cases hsz : encode ((nm ++ [Char.ofNat 0]).length + 2 * 4) with
        | none => rw [encodeEntry, hsz] at he; simp at he
        | some szb =>
          cases had : encode a with
          | none => rw [encodeEntry, hsz, had] at he; simp at he
          | some adb =>
            rw [encodeEntry, hsz, had] at he
            simp only [Option.bind_eq_bind, Option.some_bind, Option.pure_def,
              Option.some.injEq] at he
            subst he
            have hnmT : ∀ c ∈ nm ++ [Char.ofNat 0], c.toNat < 128 := by
              intro c hc
              rcases List.mem_append.mp hc with h1 | h1
              · exact hnm c h1
              · simp only [List.mem_singleton] at h1
                subst h1
                decide
            have hbytes : utf8Encode (nm ++ [Char.ofNat 0]) =
                nm.map Char.toNat ++ [0] := by
              rw [utf8Encode_ascii _ hnmT]
              simp [Char.ofNat]
            have hlen : (utf8Encode (nm ++ [Char.ofNat 0])).length =
                nm.length + 1 := by
              rw [hbytes]
              simp
            rw [List.length_cons, decodeEntries]
            have h1 : readU32 ((szb ++ adb ++ utf8Encode (nm ++ [Char.ofNat 0]) ++ tb) ++ rest)
                = some (nm.length + 1 + 8, adb ++ (utf8Encode (nm ++ [Char.ofNat 0]) ++ (tb ++ rest))) := by
              have := readU32_encode ((nm ++ [Char.ofNat 0]).length + 2 * 4) szb
                (adb ++ (utf8Encode (nm ++ [Char.ofNat 0]) ++ (tb ++ rest))) hsz
              simp only [List.append_assoc] at this ⊢
              rw [this]
              simp
            have h2 : readU32 (adb ++ (utf8Encode (nm ++ [Char.ofNat 0]) ++ (tb ++ rest)))
                = some (a, utf8Encode (nm ++ [Char.ofNat 0]) ++ (tb ++ rest)) :=
              readU32_encode a adb _ had
            rw [h1]
            simp only [Option.bind_eq_bind, Option.some_bind, h2]
            have hsz8 : 8 ≤ nm.length + 1 + 8 := by omega
            rw [if_pos hsz8]
            have htk : (utf8Encode (nm ++ [Char.ofNat 0]) ++ (tb ++ rest)).take
                (nm.length + 1 + 8 - 8) = utf8Encode (nm ++ [Char.ofNat 0]) := by
              have : nm.length + 1 + 8 - 8 = (utf8Encode (nm ++ [Char.ofNat 0])).length := by
                rw [hlen]
                omega
              rw [this]
              exact List.take_left _ _
            have hdp : (utf8Encode (nm ++ [Char.ofNat 0]) ++ (tb ++ rest)).drop
                (nm.length + 1 + 8 - 8) = tb ++ rest := by
              have : nm.length + 1 + 8 - 8 = (utf8Encode (nm ++ [Char.ofNat 0])).length := by
                rw [hlen]
                omega
              rw [this]
              exact List.drop_left _ _
            rw [htk, hdp]
            have hguard : (utf8Encode (nm ++ [Char.ofNat 0])).length = nm.length + 1 + 8 - 8 ∧
                (utf8Encode (nm ++ [Char.ofNat 0])).getLast? = some 0 := by
              constructor
              · rw [hlen]
                omega
              · rw [hbytes]
                exact List.getLast?_concat _
            rw [if_pos hguard]
            have hdrop1 : (utf8Encode (nm ++ [Char.ofNat 0])).dropLast = utf8Encode nm := by
              rw [hbytes, List.dropLast_concat, utf8Encode_ascii nm hnm]
            rw [hdrop1, utf8Decode_encode_ascii nm hnm]
            simp only [Option.bind_eq_bind, Option.some_bind]
            rw [ih tb rest (fun s hs => hascii s (by simp [hs])) htb]
            rfl

/-- Round trip on all-ASCII names: decoding any blob the script successfully
encodes reproduces the exact ordered `(address, name)` sequence. -/
theorem decode_encode_ascii (symbols : List (Nat × List Char)) (blob : List Nat)
    (hascii : ∀ s ∈ symbols, ∀ c ∈ s.2, c.toNat < 128)
    (he : encodeTable symbols = some blob) :
    decodeTable blob = some symbols := by
  cases hc : encode symbols.length with
  | none => rw [encodeTable, hc] at he; simp at he
  | some cb =>
    cases hb : encodeTableBody symbols with
    | none => rw [encodeTable, hc, hb] at he; simp at he
    | some body =>
      rw [encodeTable, hc, hb] at he
      simp only [Option.bind_eq_bind, Option.some_bind, Option.pure_def,
        Option.some.injEq] at he
      subst he
      have h1 := readU32_encode symbols.length cb body hc
      have h2 := decodeEntries_encodeTableBody symbols body [] hascii hb
      rw [List.append_nil] at h2
      rw [decodeTable, h1]
      simp only [Option.bind_eq_bind, Option.some_bind, h2]
      rfl

/-! ## Concrete fixtures used by witness theorems -/

/-- A concrete kernel path. -/
def k0 : Path := { dir := "build", stem := "kernel", ext := ".bin" }

/-- An oracle under which every external call succeeds. -/
def okEvery : List String → Bool := fun _ => true

/-- A world whose `nm` output is empty. -/
def w7 : World :=
  { kernelExists := true, nmLines := [], sectionSize := 4096, objcopyOk := okEvery }

/-- A world whose three-line `nm` output yields a 44-byte table, larger than
its 10-byte reserved section. -/
def w10 : World :=
  { kernelExists := true,
    nmLines := [["0", "T", "_kernel_start"],
                ["1", "T", "_kernel_code_start"],
                ["2", "T", "main"]],
    sectionSize := 10,
    objcopyOk := okEvery }

/-- The blob the run of `w10` writes: 2 entries, `("2", "main")` then
`("1", "_kernel_code_start")`. -/
def blob10 : List Nat :=
  [2, 0, 0, 0,
   13, 0, 0, 0, 2, 0, 0, 0, 109, 97, 105, 110, 0,
   27, 0, 0, 0, 1, 0, 0, 0,
   95, 107, 101, 114, 110, 101, 108, 95, 99, 111, 100, 101, 95, 115, 116, 97, 114, 116, 0]

/-! ## Helper lemmas -/

/-- `runCalls` always executes at least the first command of a non-empty
sequence. -/
theorem runCalls_cons_fst_ne_nil (ok : List String → Bool) (c : List String)
    (cs : List (List String)) : (runCalls ok (c :: cs)).1 ≠ [] := by
  by_cases h : ok c <;> simp [runCalls, h]

/-! ## Claim theorems -/

/-- C1 (code bug at this input): the script writes
`entry_size = len(name + chr(0)) + 8`, a character count, while the claim (and
the script's own comment, "Total size of the symbol in bytes") requires the
UTF-8 byte length.  For the one-character name `"é"` the blob records
`entry_size = 10` although the entry occupies 11 bytes and the claim requires
`utf8Len + 1 + 8 = 11`. -/
theorem entry_size_counts_chars_not_utf8_bytes :
    encodeEntry 0 ['é'] = some [10, 0, 0, 0, 0, 0, 0, 0, 195, 169, 0] ∧
    utf8Len ['é'] + 1 + 8 = 11 := by decide

/-- C2 (code bug at this input): because the `entry_size` field undercounts
non-ASCII names, the blob encoding the single symbol `(0, "é")` cannot be
decoded by the spec's reader — the 2 name bytes it is told to read do not end
in the null terminator — so the round-trip does not reproduce the encoded
`(address, name)` sequence. -/
theorem roundtrip_fails_on_non_ascii_name :
    encodeTable [(0, ['é'])] =
      some [1, 0, 0, 0, 10, 0, 0, 0, 0, 0, 0, 0, 195, 169, 0] ∧
    decodeTable [1, 0, 0, 0, 10, 0, 0, 0, 0, 0, 0, 0, 195, 169, 0] = none := by decide

/-- C3: for any blob of size `S` and positive budget `B`, the size guard
aborts with exit code 1 and an empty patch trace (hence no `objcopy` call and
no mutation of the kernel binary) iff `S > B`, and it proceeds into the patch
steps iff `S ≤ B`, including the boundary `S = B`; the guard is evaluated
before any patch event can be emitted. -/
theorem size_guard_aborts_iff_oversized (kernel symbol_table : Path)
    (blob : List Nat) (B : Nat) (ok : List String → Bool) (hB : 0 < B) :
    (guardAndPatch kernel symbol_table blob B ok = ([], 1) ↔ B < blob.length) ∧
    ((guardAndPatch kernel symbol_table blob B ok).1 ≠ [] ↔ blob.length ≤ B) := by
  unfold guardAndPatch
  by_cases h : blob.length > B
  · simp [h, Nat.not_le.mpr h]
  · have hne : (generate_binary_files kernel symbol_table ok).1 ≠ [] :=
      runCalls_cons_fst_ne_nil ok _ _
    simp [h, Nat.not_lt.mp h, hne]

/-- Witness for C3 at a concrete input: a 2-byte blob against budget 1. -/
theorem size_guard_aborts_iff_oversized_witness :
    (guardAndPatch k0 (map_file k0) [0, 0] 1 okEvery = ([], 1) ↔
      1 < ([0, 0] : List Nat).length) ∧
    ((guardAndPatch k0 (map_file k0) [0, 0] 1 okEvery).1 ≠ [] ↔
      ([0, 0] : List Nat).length ≤ 1) :=
  size_guard_aborts_iff_oversized k0 (map_file k0) [0, 0] 1 okEvery (by decide)

/-- C4: the reordering transform is exactly "drop index 0, then pop the new
index-0 element and insert it at index 1", and on any four-element filtered
input `[A, B, C, D]` it returns `[C, B, D]`. -/
theorem reorder_drops_head_then_swaps {α : Type} :
    (∀ (x y : α) (l : List α), reorder (x :: y :: l) = some (pyInsert 1 y l)) ∧
    (∀ a b c d : α, reorder [a, b, c, d] = some [c, b, d]) :=
  ⟨fun _ _ _ => rfl, fun _ _ _ _ => rfl⟩

/-- The claim's selection predicate: type code `t` or `T`, or a boundary
sentinel name. -/
def keepPred (ty nm : String) : Bool :=
  ty == "t" || ty == "T" || nm == "_kernel_code_start" || nm == "_kernel_code_end"

/-- C5: on a listing of three-column lines `address type name`, filtering
never raises, keeps a line iff its type code is `t`/`T` or its name is one of
the two boundary sentinels, and reduces each kept line to its
`[address, name]` pair. -/
theorem filter_keeps_text_symbols_and_sentinels
    (rows : List (String × String × String)) :
    selectLines (rows.map (fun r => [r.1, r.2.1, r.2.2])) =
      Except.ok ((rows.filter (fun r => keepPred r.2.1 r.2.2)).map
        (fun r => [r.1, r.2.2])) := by
  induction rows with
  | nil => rfl
  | cons r rs ih =>
    obtain ⟨a, ty, nm⟩ := r
    have hline : selectLine [a, ty, nm] = Except.ok (keepPred ty nm) := by
      by_cases h : (ty == "t" || ty == "T") = true
      · simp [selectLine, pyIndex, keepPred, h]
      · simp [selectLine, pyIndex, keepPred, h, Bool.or_assoc]
    by_cases hk : keepPred ty nm = true <;>
      simp [selectLines, hline, ih, List.filter_cons, hk, everyOther]

/-- C6: the patcher's command sequence is exactly the four `objcopy`
invocations, in the fixed order extract-debug / strip / update-section /
add-debuglink; the executed calls are always a prefix of that sequence, all
four run (in order) when every call succeeds, and every executed call except
possibly the last one succeeded — so after a failing invocation no later
invocation is executed. -/
theorem patcher_runs_four_steps_in_order_until_failure
    (kernel symbol_table : Path) (ok : List String → Bool) :
    patchCmds kernel symbol_table =
      [ ["objcopy", "--only-keep-debug", kernel.str, (kernel.withSuffix ".sym").str],
        ["objcopy", "--strip-debug", kernel.str],
        ["objcopy", "--update-section", ".kernel_symbols=" ++ symbol_table.str, kernel.str],
        ["objcopy", "--add-gnu-debuglink=" ++ (kernel.withSuffix ".sym").str, kernel.str] ] ∧
    (generate_binary_files kernel symbol_table ok).1 =
      (patchCmds kernel symbol_table).take
        (generate_binary_files kernel symbol_table ok).1.length ∧
    ((∀ c ∈ patchCmds kernel symbol_table, ok c = true) →
      generate_binary_files kernel symbol_table ok = (patchCmds kernel symbol_table, true)) ∧
    (∀ c ∈ (generate_binary_files kernel symbol_table ok).1.dropLast, ok c = true) := by
  refine ⟨rfl, ?_⟩
  simp only [generate_binary_files, patchCmds]
  by_cases h1 : ok ["objcopy", "--only-keep-debug", kernel.str, (kernel.withSuffix ".sym").str] <;>
    by_cases h2 : ok ["objcopy", "--strip-debug", kernel.str] <;>
      by_cases h3 : ok ["objcopy", "--update-section", ".kernel_symbols=" ++ symbol_table.str, kernel.str] <;>
        by_cases h4 : ok ["objcopy", "--add-gnu-debuglink=" ++ (kernel.withSuffix ".sym").str, kernel.str] <;>
          simp [runCalls, h1, h2, h3, h4]

/-- C7: when the kernel path exists but the `nm` call produces no output, the
run exits with code 1 right after the `nm` call: the trace holds no
`writeMap` event (no `.map` file is written) and no `objcopy` event (the
kernel binary is untouched). -/
theorem empty_symbol_dump_aborts_before_any_write (kernel : Path) (w : World)
    (hk : w.kernelExists = true) (hn : w.nmLines = []) :
    main kernel w = ([Event.runNm kernel], 1) := by
  unfold main extract_symbol_table
  rw [hk, hn]
  simp

/-- Witness for C7: a concrete world with empty `nm` output. -/
theorem empty_symbol_dump_aborts_before_any_write_witness :
    main k0 w7 = ([Event.runNm k0], 1) :=
  empty_symbol_dump_aborts_before_any_write k0 w7 rfl rfl

/-- C8: the selection predicate indexes token 2 whenever the type test fails,
so a two-token line with type not `t`/`T` raises `IndexError` instead of
being dropped; under the precondition that every line has at least three
tokens the comprehension never raises. -/
theorem short_line_raises_but_full_lines_never_do :
    (∀ a ty : String, ty ≠ "t" → ty ≠ "T" →
      selectLine [a, ty] = Except.error ()) ∧
    (∀ lines : List (List String), (∀ l ∈ lines, 3 ≤ l.length) →
      ∃ r, selectLines lines = Except.ok r) := by
  constructor
  · intro a ty h1 h2
    simp [selectLine, pyIndex, h1, h2]
  · intro lines
    induction lines with
    | nil => exact fun _ => ⟨[], rfl⟩
    | cons l ls ih =>
      intro h
      have hl : 3 ≤ l.length := h l (by simp)
      obtain ⟨r, hr⟩ := ih (fun x hx => h x (by simp [hx]))
      have hsel : ∃ keep, selectLine l = Except.ok keep := by
        rcases l with _ | ⟨a, _ | ⟨b, _ | ⟨c, rest⟩⟩⟩
        · simp at hl
        · simp at hl
        · simp at hl
        · by_cases hb : (b == "t" || b == "T") = true
          · exact ⟨true, by simp [selectLine, pyIndex, hb]⟩
          · exact ⟨c == "_kernel_code_start" || c == "_kernel_code_end",
              by simp [selectLine, pyIndex, hb]⟩
      obtain ⟨keep, hkeep⟩ := hsel
      exact ⟨if keep then everyOther l :: r else r, by simp [selectLines, hkeep, hr]⟩

/-- Witness for C8's inner hypotheses at concrete inputs: the two-token data
line `08049000 d` raises, and the one full line `08049000 t main` passes. -/
theorem short_line_raises_but_full_lines_never_do_witness :
    selectLine ["08049000", "d"] = Except.error () ∧
    (∃ r, selectLines [["08049000", "t", "main"]] = Except.ok r) :=
  ⟨short_line_raises_but_full_lines_never_do.1 "08049000" "d"
      (by decide) (by decide),
   short_line_raises_but_full_lines_never_do.2 [["08049000", "t", "main"]]
      (by simp)⟩

/-- C9: the reordering raises (pop from an empty list) exactly on filtered
lists of fewer than two entries; on two or more entries it is total. -/
theorem reorder_raises_iff_fewer_than_two {α : Type} (l : List α) :
    reorder l = none ↔ l.length < 2 := by
  rcases l with _ | ⟨x, _ | ⟨y, rest⟩⟩ <;> simp [reorder, pyPop0]

/-- C10: on any run that reaches the size guard and is rejected by it, the
encoded blob has already been written to `<kernel-stem>.map` — the trace ends
`runNm` then `writeMap` with the map path beside the kernel — while no
`objcopy` event exists, so the kernel binary is unchanged and the exit code
is 1. -/
theorem map_file_written_before_size_guard (kernel : Path) (w : World)
    (filtered ordered : List (List String)) (blob : List Nat)
    (hk : w.kernelExists = true) (hn : w.nmLines ≠ [])
    (hf : selectLines w.nmLines = Except.ok filtered)
    (hr : reorder filtered = some ordered)
    (he : encodeLines ordered = some blob)
    (hs : w.sectionSize < blob.length) :
    main kernel w =
      ([Event.runNm kernel, Event.writeMap (map_file kernel) blob], 1) := by
  unfold main extract_symbol_table guardAndPatch
  rw [hk]
  simp [List.isEmpty_iff, hn, hf, hr, he, hs]

/-- Witness for C10: the concrete world `w10` writes the 44-byte `blob10` to
`build/kernel.map` and is then rejected by its 10-byte budget. -/
theorem map_file_written_before_size_guard_witness :
    main k0 w10 =
      ([Event.runNm k0, Event.writeMap (map_file k0) blob10], 1) :=
  map_file_written_before_size_guard k0 w10
    [["0", "_kernel_start"], ["1", "_kernel_code_start"], ["2", "main"]]
    [["2", "main"], ["1", "_kernel_code_start"]] blob10
    rfl (by decide) rfl rfl rfl (by decide)

end KernelSymbols
